import Mathlib

/-!
Verification of the background-worker queue subsystem of the web app:
the producer/consumer queue with an optional watermark and occupancy
counter (`src/api/src/worker/queue.rs`), the backpressure gate
(`src/api/src/worker/mod.rs`) and the worker loop
(`src/api/src/worker/unit.rs`), embedded as pure state-passing
functions over a sequential queue state.
-/

namespace WebApp

/-- Sequential state of one queue: the FIFO contents of the underlying
`SegQueue` (front of the queue at the head of the list) together with
the optional `(max_len, len)` pair held behind the `RwLock`.
`lenCtr = none` corresponds to a queue built without `with_max_len`. -/
structure Queue (T : Type) : Type where
  items : List T
  lenCtr : Option (Nat × Nat)
  deriving Repr, DecidableEq

/-- `QueueBuilder::build`: fresh empty queue; when a max length was set
with `with_max_len`, the counter is allocated and initialised to `0`. -/
def QueueBuilder.build (T : Type) (max_len : Option Nat) : Queue T :=
  { items := [], lenCtr := max_len.map (fun m => (m, 0)) }

/-- `Producer::push`: when the counter is present, increment it under
its lock, then push the message onto the `SegQueue`. The maximum length
is never enforced. -/
def Producer.push {T : Type} (q : Queue T) (msg : T) : Queue T :=
  { items := q.items ++ [msg],
    lenCtr := q.lenCtr.map (fun ml => (ml.1, ml.2 + 1)) }

/-- `<Producer as IsFull>::is_full`: with a `(max_len, len)` pair, read
the counter and compare `*len >= max_len`; without one, `false`. -/
def Producer.is_full {T : Type} (q : Queue T) : Bool :=
  match q.lenCtr with
  | some (max_len, len) => decide (max_len ≤ len)
  | none => false

/-- `is_full` in state-passing form: the body of the Rust function only
takes a read lock, so the state component of the result is the input
state at every branch. -/
def Producer.is_full_st {T : Type} (q : Queue T) : Bool × Queue T :=
  match q.lenCtr with
  | some (max_len, len) => (decide (max_len ≤ len), q)
  | none => (false, q)

/-- `Consumer::try_pop`: pop from the `SegQueue` if non-empty; on a
successful pop decrement the counter (if present) under its lock.
The `usize` decrement is rendered with truncated `Nat` subtraction;
`Consumer.try_pop_checked` below models the underflow panic. -/
def Consumer.try_pop {T : Type} (q : Queue T) : Option T × Queue T :=
  match q.items with
  | [] => (none, q)
  | msg :: rest =>
      (some msg,
       { items := rest, lenCtr := q.lenCtr.map (fun ml => (ml.1, ml.2 - 1)) })

/-- `Consumer::try_pop` with the `usize` overflow check made explicit:
`none` is the debug-mode panic of `*len -= 1` on a zero counter, which
truncated subtraction would silently absorb. -/
def Consumer.try_pop_checked {T : Type} (q : Queue T) :
    Option (Option T × Queue T) :=
  match q.items with
  | [] => some (none, q)
  | msg :: rest =>
      match q.lenCtr with
      | none => some (some msg, { items := rest, lenCtr := none })
      | some (m, l) =>
          if l = 0 then none
          else some (some msg, { items := rest, lenCtr := some (m, l - 1) })

/-- One sequential operation on a queue, as issued through the producer
or consumer handle. -/
inductive Op (T : Type) : Type where
  | push (msg : T)
  | tryPop
  deriving Repr, DecidableEq

/-- Effect of one operation on the queue state (the popped value, if
any, is discarded). -/
def runOp {T : Type} (q : Queue T) : Op T → Queue T
  | Op.push msg => Producer.push q msg
  | Op.tryPop => (Consumer.try_pop q).2

/-- State after a sequential sequence of pushes and pops. -/
def runOps {T : Type} (q : Queue T) : List (Op T) → Queue T
  | [] => q
  | op :: rest => runOps (runOp q op) rest

/-- Run a sequence of operations, also collecting, in order, the values
pushed and the values returned by the successful pops. -/
def runTrace {T : Type} (q : Queue T) :
    List (Op T) → Queue T × List T × List T
  | [] => (q, [], [])
  | Op.push msg :: rest =>
      let r := runTrace (Producer.push q msg) rest
      (r.1, msg :: r.2.1, r.2.2)
  | Op.tryPop :: rest =>
      match Consumer.try_pop q with
      | (some msg, q') =>
          let r := runTrace q' rest
          (r.1, r.2.1, msg :: r.2.2)
      | (none, q') => runTrace q' rest

/-- Push a list of messages in order through the producer handle. -/
def pushAll {T : Type} (q : Queue T) : List T → Queue T
  | [] => q
  | m :: rest => pushAll (Producer.push q m) rest

/-- The error kind raised by the backpressure gate
(`ErrorKind::QueueIsFull` in `src/api/src/worker/mod.rs`). -/
inductive ErrorKind : Type where
  | queueIsFull
  deriving Repr, DecidableEq

/-- A `Box<dyn IsFull>`: some queue, of any message type, seen only
through its `is_full` capability. -/
def BoxIsFull : Type 1 := (T : Type) × Queue T

/-- `is_full` on a boxed queue dispatches to the producer impl. -/
def BoxIsFull.is_full (b : BoxIsFull) : Bool := Producer.is_full b.2

/-- The `Backpressure` middleware: the list of registered queues. -/
structure Backpressure : Type 1 where
  to_check : List BoxIsFull

/-- `Backpressure::new`: no registered queues. -/
def Backpressure.new : Backpressure := ⟨[]⟩

/-- `Backpressure::add_queue`: append one queue to the list. -/
def Backpressure.add_queue (g : Backpressure) (b : BoxIsFull) : Backpressure :=
  ⟨g.to_check ++ [b]⟩

/-- `Backpressure::check`: `Err(QueueIsFull)` when any registered queue
reports full, `Ok(())` otherwise. -/
def Backpressure.check (g : Backpressure) : Except ErrorKind Unit :=
  if g.to_check.any (fun b => b.is_full) then Except.error ErrorKind.queueIsFull
  else Except.ok ()

/-- `check` in state-passing form: the body only reads `to_check`
(through `&self`), so the state component is the input gate. -/
def Backpressure.check_st (g : Backpressure) :
    Except ErrorKind Unit × Backpressure :=
  if g.to_check.any (fun b => b.is_full) then
    (Except.error ErrorKind.queueIsFull, g)
  else (Except.ok (), g)

/-- `Worker::spawn`'s loop, run until the queue is observed empty: pop
a message, feed it to the unit function with the mutable context, and
repeat. Returns the final context and queue state. -/
def Worker.drain {C M : Type} (unit : C → M → C) (ctx : C) (q : Queue M) :
    C × Queue M :=
  match h : Consumer.try_pop q with
  | (some msg, q') => Worker.drain unit (unit ctx msg) q'
  | (none, _) => (ctx, q)
termination_by q.items.length
decreasing_by
  unfold Consumer.try_pop at h
  cases hq : q.items with
  | nil => rw [hq] at h; simp at h
  | cons a rest =>
      rw [hq] at h
      simp only [Prod.mk.injEq, Option.some.injEq] at h
      obtain ⟨-, h2⟩ := h
      subst h2
      simp [hq]

theorem is_full_eq {T : Type} {q : Queue T} {w l : Nat}
    (h : q.lenCtr = some (w, l)) :
    Producer.is_full q = decide (w ≤ l) := by
  unfold Producer.is_full
  rw [h]

theorem is_full_none {T : Type} {q : Queue T} (h : q.lenCtr = none) :
    Producer.is_full q = false := by
  unfold Producer.is_full
  rw [h]

theorem try_pop_nil {T : Type} {q : Queue T} (h : q.items = []) :
    Consumer.try_pop q = (none, q) := by
  unfold Consumer.try_pop
  rw [h]

theorem try_pop_cons {T : Type} {q : Queue T} {m : T} {rest : List T}
    (h : q.items = m :: rest) :
    Consumer.try_pop q =
      (some m,
       { items := rest,
         lenCtr := q.lenCtr.map (fun ml => (ml.1, ml.2 - 1)) }) := by
  unfold Consumer.try_pop
  rw [h]

theorem pushAll_items {T : Type} (l : List T) (q : Queue T) :
    (pushAll q l).items = q.items ++ l := by
  induction l generalizing q with
  | nil => simp [pushAll]
  | cons m rest ih =>
      rw [pushAll, ih]
      simp [Producer.push]

theorem pushAll_lenCtr {T : Type} (l : List T) (q : Queue T) :
    (pushAll q l).lenCtr =
      q.lenCtr.map (fun ml => (ml.1, ml.2 + l.length)) := by
  induction l generalizing q with
  | nil => cases hc : q.lenCtr <;> simp [pushAll, hc]
  | cons m rest ih =>
      rw [pushAll, ih]
      cases hc : q.lenCtr with
      | none => simp [Producer.push, hc]
      | some ml =>
          simp [Producer.push, hc]
          omega

theorem runOp_counter {T : Type} {q : Queue T} {w : Nat}
    (h : q.lenCtr = some (w, q.items.length)) (op : Op T) :
    (runOp q op).lenCtr = some (w, (runOp q op).items.length) := by
  cases op with
  | push msg => simp [runOp, Producer.push, h]
  | tryPop =>
      cases hi : q.items with
      | nil => simp [runOp, try_pop_nil hi, h]
      | cons a rest =>
          rw [hi] at h
          simp only [List.length_cons] at h
          simp [runOp, try_pop_cons hi, h]

theorem runOps_counter {T : Type} (ops : List (Op T)) {q : Queue T} {w : Nat}
    (h : q.lenCtr = some (w, q.items.length)) :
    (runOps q ops).lenCtr = some (w, (runOps q ops).items.length) := by
  induction ops generalizing q with
  | nil => simpa [runOps] using h
  | cons op rest ih =>
      rw [runOps]
      exact ih (runOp_counter h op)

theorem runOp_lenCtr_none {T : Type} {q : Queue T}
    (h : q.lenCtr = none) (op : Op T) :
    (runOp q op).lenCtr = none := by
  cases op with
  | push msg => simp [runOp, Producer.push, h]
  | tryPop =>
      cases hi : q.items with
      | nil => simp [runOp, try_pop_nil hi, h]
      | cons a rest => simp [runOp, try_pop_cons hi, h]

theorem runOps_lenCtr_none {T : Type} (ops : List (Op T)) {q : Queue T}
    (h : q.lenCtr = none) :
    (runOps q ops).lenCtr = none := by
  induction ops generalizing q with
  | nil => simpa [runOps] using h
  | cons op rest ih =>
      rw [runOps]
      exact ih (runOp_lenCtr_none h op)

theorem runTrace_eq {T : Type} (ops : List (Op T)) (q : Queue T) :
    (runTrace q ops).2.2 ++ (runTrace q ops).1.items =
      q.items ++ (runTrace q ops).2.1 := by
  induction ops generalizing q with
  | nil => simp [runTrace]
  | cons op rest ih =>
      cases op with
      | push msg =>
          have h := ih (Producer.push q msg)
          simp only [runTrace]
          rw [h]
          simp [Producer.push]
      | tryPop =>
          cases hi : q.items with
          | nil =>
              have h := ih q
              simp only [runTrace, try_pop_nil hi]
              rw [h, hi]
          | cons a rest' =>
              have h := ih { items := rest',
                             lenCtr :=
                               q.lenCtr.map (fun ml => (ml.1, ml.2 - 1)) }
              simp only [runTrace, try_pop_cons hi]
              simp only [List.cons_append]
              rw [h]

theorem drain_eq_foldl {C M : Type} (unit : C → M → C) :
    ∀ (l : List M) (ctx : C) (c : Option (Nat × Nat)),
      (Worker.drain unit ctx { items := l, lenCtr := c }).1 =
        List.foldl unit ctx l := by
  intro l
  induction l with
  | nil =>
      intro ctx c
      rw [Worker.drain]
      simp [Consumer.try_pop]
  | cons m rest ih =>
      intro ctx c
      rw [Worker.drain]
      simp only [Consumer.try_pop, List.foldl_cons]
      exact ih (unit ctx m) _

/-- C1: `is_full` returns true iff a watermark was configured at build
time and the current counter value is at or above it; without a
watermark it returns false, in particular a queue built with no max
length reports not-full after any number of pushes. -/
theorem is_full_iff_watermark {T : Type} (q : Queue T) :
    (Producer.is_full q = true ↔
      ∃ w l, q.lenCtr = some (w, l) ∧ w ≤ l) ∧
    (q.lenCtr = none → Producer.is_full q = false) ∧
    (∀ msgs : List T,
      Producer.is_full (pushAll (QueueBuilder.build T none) msgs) = false) := by
  refine ⟨?_, fun h => is_full_none h, ?_⟩
  · cases hc : q.lenCtr with
    | none =>
        rw [is_full_none hc]
        simp [hc]
    | some ml =>
        obtain ⟨w, l⟩ := ml
        rw [is_full_eq hc]
        simp only [hc, Option.some.injEq, Prod.mk.injEq, decide_eq_true_eq]
        constructor
        · intro h
          exact ⟨w, l, ⟨rfl, rfl⟩, h⟩
        · rintro ⟨w', l', ⟨rfl, rfl⟩, h⟩
          exact h
  · intro msgs
    apply is_full_none
    rw [pushAll_lenCtr]
    simp [QueueBuilder.build]

/-- Witness for C1 at two concrete queues, one unmonitored and one at
its watermark. -/
theorem is_full_iff_watermark_witness :
    Producer.is_full ({ items := [], lenCtr := none } : Queue Unit) = false ∧
    Producer.is_full ({ items := [()], lenCtr := some (1, 1) } : Queue Unit)
      = true :=
  ⟨(is_full_iff_watermark { items := [], lenCtr := none }).2.1 rfl,
   (is_full_iff_watermark { items := [()], lenCtr := some (1, 1) }).1.mpr
     ⟨1, 1, rfl, le_refl 1⟩⟩

/-- C2: `check` succeeds iff no registered queue reports full, fails
with `QueueIsFull` as soon as one does, is invariant under permuting
the registration order, and succeeds on a gate with no queues. -/
theorem check_ok_iff_no_full :
    (∀ g : Backpressure,
      Backpressure.check g = Except.ok () ↔
        ∀ b ∈ g.to_check, BoxIsFull.is_full b = false) ∧
    (∀ g : Backpressure,
      (∃ b ∈ g.to_check, BoxIsFull.is_full b = true) →
        Backpressure.check g = Except.error ErrorKind.queueIsFull) ∧
    (∀ g g' : Backpressure, List.Perm g.to_check g'.to_check →
        Backpressure.check g = Backpressure.check g') ∧
    Backpressure.check Backpressure.new = Except.ok () := by
  refine ⟨?_, ?_, ?_, rfl⟩
  · intro g
    unfold Backpressure.check
    cases h : g.to_check.any (fun b => b.is_full) with
    | true =>
        simp only [h, if_true]
        constructor
        · intro hc
          cases hc
        · intro hall
          obtain ⟨b, hb, hfull⟩ := List.any_eq_true.mp h
          rw [hall b hb] at hfull
          cases hfull
    | false =>
        rw [if_neg]
        · constructor
          · intro _ b hb
            have := List.any_eq_false.mp h b hb
            simpa using this
          · intro _
            rfl
        · simp [h]
  · intro g hex
    unfold Backpressure.check
    rw [if_pos]
    exact List.any_eq_true.mpr hex
  · intro g g' hp
    unfold Backpressure.check
    have hany : g.to_check.any (fun b => b.is_full)
        = g'.to_check.any (fun b => b.is_full) := by
      rw [Bool.eq_iff_iff]
      simp only [List.any_eq_true]
      constructor
      · rintro ⟨b, hb, hf⟩
        exact ⟨b, hp.mem_iff.mp hb, hf⟩
      · rintro ⟨b, hb, hf⟩
        exact ⟨b, hp.mem_iff.mpr hb, hf⟩
    rw [hany]

/-- Witness for C2: a gate holding one full queue (watermark 0) and one
non-full queue (watermark 1, empty) fails, in either registration
order, and the empty gate succeeds. -/
theorem check_ok_iff_no_full_witness :
    Backpressure.check
        (Backpressure.add_queue
          (Backpressure.add_queue Backpressure.new
            ⟨Unit, { items := [], lenCtr := some (0, 0) }⟩)
          ⟨Unit, { items := [], lenCtr := some (1, 0) }⟩)
      = Except.error ErrorKind.queueIsFull ∧
    Backpressure.check
        (Backpressure.add_queue
          (Backpressure.add_queue Backpressure.new
            ⟨Unit, { items := [], lenCtr := some (1, 0) }⟩)
          ⟨Unit, { items := [], lenCtr := some (0, 0) }⟩)
      = Except.error ErrorKind.queueIsFull ∧
    Backpressure.check Backpressure.new = Except.ok () :=
  ⟨check_ok_iff_no_full.2.1 _
      ⟨⟨Unit, { items := [], lenCtr := some (0, 0) }⟩,
       by simp [Backpressure.new, Backpressure.add_queue], rfl⟩,
   check_ok_iff_no_full.2.1 _
      ⟨⟨Unit, { items := [], lenCtr := some (0, 0) }⟩,
       by simp [Backpressure.new, Backpressure.add_queue], rfl⟩,
   check_ok_iff_no_full.2.2.2⟩

/-- C3: `push` never rejects: it always appends the message, increments
the counter by exactly one when one is present, and a full queue stays
full after pushing past the watermark. -/
theorem push_never_rejects {T : Type} (q : Queue T) (msg : T) :
    (Producer.push q msg).items = q.items ++ [msg] ∧
    (∀ w l, q.lenCtr = some (w, l) →
      (Producer.push q msg).lenCtr = some (w, l + 1)) ∧
    (q.lenCtr = none → (Producer.push q msg).lenCtr = none) ∧
    (Producer.is_full q = true →
      Producer.is_full (Producer.push q msg) = true) := by
  refine ⟨rfl, ?_, ?_, ?_⟩
  · intro w l h
    simp [Producer.push, h]
  · intro h
    simp [Producer.push, h]
  · intro h
    cases hc : q.lenCtr with
    | none => rw [is_full_none hc] at h; cases h
    | some ml =>
        obtain ⟨w, l⟩ := ml
        rw [is_full_eq hc] at h
        have hwl : w ≤ l := of_decide_eq_true h
        have hc' : (Producer.push q msg).lenCtr = some (w, l + 1) := by
          simp [Producer.push, hc]
        rw [is_full_eq hc']
        exact decide_eq_true (Nat.le_succ_of_le hwl)

/-- Witness for C3: pushing onto a queue already at its watermark of 1
is allowed and leaves it full. -/
theorem push_never_rejects_witness :
    Producer.is_full
        (Producer.push ({ items := [()], lenCtr := some (1, 1) } : Queue Unit)
          ()) = true :=
  (push_never_rejects { items := [()], lenCtr := some (1, 1) } ()).2.2.2 rfl

/-- C6: `try_pop` on an empty queue returns the absent value and leaves
queue and counter untouched; on a non-empty queue it removes and
returns the front message and decrements the counter (if present) by
one. -/
theorem try_pop_empty_or_front {T : Type} (q : Queue T) :
    (q.items = [] → Consumer.try_pop q = (none, q)) ∧
    (∀ m rest, q.items = m :: rest →
      (Consumer.try_pop q).1 = some m ∧
      (Consumer.try_pop q).2.items = rest ∧
      (∀ w l, q.lenCtr = some (w, l) →
        (Consumer.try_pop q).2.lenCtr = some (w, l - 1)) ∧
      (q.lenCtr = none → (Consumer.try_pop q).2.lenCtr = none)) := by
  refine ⟨fun h => try_pop_nil h, ?_⟩
  intro m rest h
  rw [try_pop_cons h]
  refine ⟨rfl, rfl, ?_, ?_⟩
  · intro w l hc
    simp [hc]
  · intro hc
    simp [hc]

/-- Witness for C6: both branches at concrete queues, the empty one
with its counter at 0 and the non-empty one with its counter at 1. -/
theorem try_pop_empty_or_front_witness :
    Consumer.try_pop ({ items := [], lenCtr := some (2, 0) } : Queue Unit)
        = (none, { items := [], lenCtr := some (2, 0) }) ∧
    (Consumer.try_pop
        ({ items := [()], lenCtr := some (3, 1) } : Queue Unit)).1
      = some () :=
  ⟨(try_pop_empty_or_front { items := [], lenCtr := some (2, 0) }).1 rfl,
   ((try_pop_empty_or_front { items := [()], lenCtr := some (3, 1) }).2
      () [] rfl).1⟩

/-- C8: `is_full` and `check` are read-only: in state-passing form they
return the input queue state and the input gate unchanged while
computing the same answers as their functional forms. -/
theorem is_full_check_readonly :
    (∀ (T : Type) (q : Queue T),
      (Producer.is_full_st q).2 = q ∧
      (Producer.is_full_st q).1 = Producer.is_full q) ∧
    (∀ g : Backpressure,
      (Backpressure.check_st g).2 = g ∧
      (Backpressure.check_st g).1 = Backpressure.check g) := by
  constructor
  · intro T q
    unfold Producer.is_full_st Producer.is_full
    cases hc : q.lenCtr with
    | none => exact ⟨rfl, rfl⟩
    | some ml =>
        obtain ⟨w, l⟩ := ml
        exact ⟨rfl, rfl⟩
  · intro g
    unfold Backpressure.check_st Backpressure.check
    cases h : g.to_check.any (fun b => b.is_full) <;> simp [h]

/-- C4: on a queue built with no watermark, the values returned by the
successful pops of any sequential operation sequence, followed by the
messages still queued, are exactly the pushed values in push order:
FIFO delivery with no loss and no duplication. -/
theorem fifo_no_loss_no_dup {T : Type} (ops : List (Op T)) :
    (runTrace (QueueBuilder.build T none) ops).2.2 ++
        (runTrace (QueueBuilder.build T none) ops).1.items =
      (runTrace (QueueBuilder.build T none) ops).2.1 := by
  have h := runTrace_eq ops (QueueBuilder.build T none)
  simpa [QueueBuilder.build] using h

/-- C5: with watermark `W ≥ 1`, after exactly `W` pushes and no pops
`is_full` is true; after one subsequent successful pop it is false. -/
theorem watermark_boundary (W : Nat) (h : 1 ≤ W) :
    Producer.is_full
        (pushAll (QueueBuilder.build Unit (some W)) (List.replicate W ()))
      = true ∧
    (Consumer.try_pop
        (pushAll (QueueBuilder.build Unit (some W))
          (List.replicate W ()))).1 = some () ∧
    Producer.is_full
        (Consumer.try_pop
          (pushAll (QueueBuilder.build Unit (some W))
            (List.replicate W ()))).2 = false := by
  obtain ⟨V, rfl⟩ : ∃ V, W = V + 1 := ⟨W - 1, by omega⟩
  have hctr : (pushAll (QueueBuilder.build Unit (some (V + 1)))
      (List.replicate (V + 1) ())).lenCtr = some (V + 1, V + 1) := by
    rw [pushAll_lenCtr]
    simp [QueueBuilder.build]
  have hitems : (pushAll (QueueBuilder.build Unit (some (V + 1)))
      (List.replicate (V + 1) ())).items = () :: List.replicate V () := by
    rw [pushAll_items]
    simp [QueueBuilder.build, List.replicate_succ]
  have hpop := try_pop_cons hitems
  refine ⟨?_, ?_, ?_⟩
  · rw [is_full_eq hctr]
    simp
  · rw [hpop]
  · rw [hpop, hctr]
    simp [Producer.is_full]

/-- Witness for C5 at watermark 2. -/
theorem watermark_boundary_witness :
    1 ≤ 2 ∧
    Producer.is_full
        (pushAll (QueueBuilder.build Unit (some 2)) (List.replicate 2 ()))
      = true ∧
    Producer.is_full
        (Consumer.try_pop
          (pushAll (QueueBuilder.build Unit (some 2))
            (List.replicate 2 ()))).2 = false :=
  ⟨by decide, (watermark_boundary 2 (by decide)).1,
   (watermark_boundary 2 (by decide)).2.2⟩

/-- C7: a worker that drains a queue onto which a single producer
pushed `msgs` in order ends with context equal to the left fold of the
unit function over `msgs` from the initial context: each message is
processed exactly once, in push order, against the accumulated
context. -/
theorem worker_folds_messages {C M : Type} (unit : C → M → C) (ctx : C)
    (msgs : List M) :
    (Worker.drain unit ctx (pushAll (QueueBuilder.build M none) msgs)).1 =
      List.foldl unit ctx msgs := by
  have hitems := pushAll_items msgs (QueueBuilder.build M none)
  have hctr : (pushAll (QueueBuilder.build M none) msgs).lenCtr = none := by
    rw [pushAll_lenCtr]
    simp [QueueBuilder.build]
  rcases hqq : pushAll (QueueBuilder.build M none) msgs with ⟨its, ctr⟩
  rw [hqq] at hitems hctr
  simp only [QueueBuilder.build, List.nil_append] at hitems hctr
  rw [hitems, hctr]
  exact drain_eq_foldl unit msgs ctx none

/-- C9: on a monitored queue, after every sequential sequence of pushes
and pops starting from build, the shared counter equals the number of
messages currently queued. -/
theorem counter_equals_occupancy {T : Type} (W : Nat) (ops : List (Op T)) :
    (runOps (QueueBuilder.build T (some W)) ops).lenCtr =
      some (W, (runOps (QueueBuilder.build T (some W)) ops).items.length) :=
  runOps_counter ops (by simp [QueueBuilder.build])

/-- C10: in every sequentially reachable state the checked pop, which
models the `usize` underflow panic of `*len -= 1`, agrees with the
actual pop: a successful pop always finds a counter of at least 1 and
the zero-counter decrement is unreachable. -/
theorem try_pop_never_underflows {T : Type} (max_len : Option Nat)
    (ops : List (Op T)) :
    Consumer.try_pop_checked (runOps (QueueBuilder.build T max_len) ops) =
      some (Consumer.try_pop (runOps (QueueBuilder.build T max_len) ops)) := by
  cases max_len with
  | none =>
      have hc : (runOps (QueueBuilder.build T none) ops).lenCtr = none :=
        runOps_lenCtr_none ops (by simp [QueueBuilder.build])
      cases hi : (runOps (QueueBuilder.build T none) ops).items with
      | nil =>
          rw [try_pop_nil hi]
          unfold Consumer.try_pop_checked
          rw [hi]
      | cons a rest =>
          rw [try_pop_cons hi]
          unfold Consumer.try_pop_checked
          rw [hi, hc]
          simp
  | some W =>
      have hc : (runOps (QueueBuilder.build T (some W)) ops).lenCtr
          = some (W,
              (runOps (QueueBuilder.build T (some W)) ops).items.length) :=
        runOps_counter ops (by simp [QueueBuilder.build])
      cases hi : (runOps (QueueBuilder.build T (some W)) ops).items with
      | nil =>
          rw [try_pop_nil hi]
          unfold Consumer.try_pop_checked
          rw [hi]
      | cons a rest =>
          rw [try_pop_cons hi]
          unfold Consumer.try_pop_checked
          rw [hi] at hc
          rw [hi, hc]
          simp

end WebApp
